import Mathlib

/-!
Verification of `distkeras/evaluators.py` (dist-keras).

The module defines an abstract `Evaluator` (holding a label column name and a
prediction column name), an `AccuracyEvaluator` and an `MseEvaluator`.
Dataframes are modelled shallowly: a schema (list of column names) together
with rows (lists of cell values, positionally aligned with the schema).
Numeric values are modelled with `ℚ` (exact arithmetic standing in for the
floats of the source).  The Spark operations the code delegates to
(`count`, `where`, `withColumn`, `select`, `groupBy().avg`, `collect`) are
embedded as explicit functions; fallible operations return `Option` /
`Except`.
-/

namespace DistKeras

/-- A cell of a dataframe: either a numeric scalar (Spark `DoubleType`) or a
dense numeric vector (`pyspark.mllib.linalg.DenseVector`). -/
inductive Val where
  | num (q : ℚ)
  | vec (v : List ℚ)
deriving DecidableEq, BEq

/-- A Spark dataframe, shallowly: a schema of column names and a list of
rows, each row a list of cells positionally aligned with the schema. -/
structure DataFrame where
  cols : List String
  rows : List (List Val)
deriving DecidableEq, BEq

/-- Model of `dataframe.count()`: the number of rows. -/
def DataFrame.count (df : DataFrame) : Nat := df.rows.length

/-- Index of the first column with the given name (Spark column resolution
`dataframe[name]`); `none` models the `AnalysisException` for a missing
column. -/
def colIdxAux (c : String) : List String → Option Nat
  | [] => none
  | s :: rest => if s = c then some 0 else (colIdxAux c rest).map (· + 1)

/-- Resolve a column name against a dataframe's schema. -/
def DataFrame.colIdx (df : DataFrame) (c : String) : Option Nat :=
  colIdxAux c df.cols

/-- Well-formedness: every row has exactly one cell per schema column. -/
def DataFrame.Wf (df : DataFrame) : Prop :=
  ∀ r ∈ df.rows, r.length = df.cols.length

/-- Model of `dataframe.where(dataframe[c1] == dataframe[c2])`: keep the rows whose
cells in the two named columns are both present and equal (Spark's `==`
yields null — hence a dropped row — when either side is null/absent).
`none` models the analysis error for a missing column. -/
def DataFrame.whereEq (df : DataFrame) (c1 c2 : String) : Option DataFrame :=
  match df.colIdx c1, df.colIdx c2 with
  | some i, some j =>
      some ⟨df.cols,
            df.rows.filter (fun r =>
              match r[i]?, r[j]? with
              | some a, some b => decide (a = b)
              | _, _ => false)⟩
  | _, _ => none

/-- The `M` of the specification: the number of rows whose cell in column
`i` equals the cell in column `j`. -/
def matchCount (df : DataFrame) (i j : Nat) : Nat :=
  (df.rows.filter (fun r => decide (r[i]? = r[j]?))).length

/-- Fallible map over a list, failing if any element fails (the effect of
a raising UDF inside a Spark job). -/
def omap (f : α → Option β) : List α → Option (List β)
  | [] => some []
  | a :: as =>
      match f a, omap f as with
      | some b, some bs => some (b :: bs)
      | _, _ => none

/-- Model of `dataframe.withColumn(name, f(row))` (Spark semantics): if `name` is
already in the schema the column is replaced in place, otherwise the schema
grows by one column appended at the end; every row gets the cell computed by
`f` from that (original) row.  Fails if `f` fails on some row. -/
def DataFrame.withColumn (df : DataFrame) (name : String)
    (f : List Val → Option Val) : Option DataFrame :=
  match omap f df.rows with
  | none => none
  | some vals =>
      match df.colIdx name with
      | some i => some ⟨df.cols, List.zipWith (fun r v => r.set i v) df.rows vals⟩
      | none => some ⟨df.cols ++ [name], List.zipWith (fun r v => r ++ [v]) df.rows vals⟩

/-- Model of `dataframe.select(c)`: a single-column dataframe holding that column. -/
def DataFrame.select1 (df : DataFrame) (c : String) : Option DataFrame :=
  match df.colIdx c with
  | none => none
  | some i =>
      match omap (fun r => r[i]?) df.rows with
      | none => none
      | some cells => some ⟨[c], cells.map (fun v => [v])⟩

/-- Model of `dataframe.groupBy().avg(c).collect()[0][0]`: the average of a numeric
column.  The outer `none` models an analysis error (missing or non-numeric
column); `some none` models the null that Spark's global average yields on a
dataframe with no rows. -/
def DataFrame.avgCol (df : DataFrame) (c : String) : Option (Option ℚ) :=
  match df.colIdx c with
  | none => none
  | some i =>
      match omap (fun r =>
          match r[i]? with
          | some (Val.num q) => some q
          | _ => none) df.rows with
      | none => none
      | some qs =>
          if qs.length = 0 then some none
          else some (some (qs.sum / (qs.length : ℚ)))

/-- Faults an `evaluate` call can surface with. -/
inductive EvalError where
  | notImplementedError
  | zeroDivisionError
  | analysisError
  | typeError
deriving DecidableEq, BEq

/-- State of `Evaluator.__init__(self, label_col="label", prediction_col="prediction")`:
stores the two column names. -/
structure Evaluator where
  label_column : String
  prediction_column : String
deriving DecidableEq, BEq

/-- Constructor of the abstract base class, with the source's defaults. -/
def Evaluator.init (label_col : String := "label")
    (prediction_col : String := "prediction") : Evaluator :=
  ⟨label_col, prediction_col⟩

/-- Model of `Evaluator.evaluate`: the abstract base always raises
`NotImplementedError`. -/
def Evaluator.evaluate (_self : Evaluator) (_dataframe : DataFrame) :
    Except EvalError ℚ :=
  .error .notImplementedError

/-- The Python classes of the module.  `AccuracyEvaluator` and
`MseEvaluator` both inherit directly from `Evaluator` (the source reads
`class MseEvaluator(Evaluator)`). -/
inductive PyClass where
  | evaluatorC
  | accuracyEvaluatorC
  | mseEvaluatorC
deriving DecidableEq, BEq

/-- The inclusive ancestor chain (method-resolution order) of each class. -/
def PyClass.ancestors : PyClass → List PyClass
  | .evaluatorC => [.evaluatorC]
  | .accuracyEvaluatorC => [.accuracyEvaluatorC, .evaluatorC]
  | .mseEvaluatorC => [.mseEvaluatorC, .evaluatorC]

/-- Python's subclass relation on the module's classes. -/
def PyClass.isSubclassOf (c d : PyClass) : Bool :=
  (PyClass.ancestors c).contains d

/-- Model of `AccuracyEvaluator.__init__`: calls
`super(AccuracyEvaluator, self).__init__(label_col, prediction_col)`.
Two-argument `super(C, self)` requires `isinstance(self, C)`; here `self`
is an `AccuracyEvaluator`, the check passes and the base constructor runs. -/
def AccuracyEvaluator.init (label_col : String := "label")
    (prediction_col : String := "prediction") : Except EvalError Evaluator :=
  if PyClass.isSubclassOf .accuracyEvaluatorC .accuracyEvaluatorC then
    .ok (Evaluator.init label_col prediction_col)
  else .error .typeError

/-- Model of `AccuracyEvaluator.evaluate(self, dataframe)` (lines 43-51 of the
source): count all rows, count the rows where the prediction cell equals the
label cell, return `float(validated) / float(num_instances)`.  Python float
division by `0.0` raises `ZeroDivisionError`. -/
def AccuracyEvaluator.evaluate (self : Evaluator) (dataframe : DataFrame) :
    Except EvalError ℚ :=
  let num_instances := dataframe.count
  match dataframe.whereEq self.prediction_column self.label_column with
  | none => .error .analysisError
  | some cleaned =>
      let validated_instances := cleaned.count
      if num_instances = 0 then .error .zeroDivisionError
      else .ok ((validated_instances : ℚ) / (num_instances : ℚ))

/-- The fields an `MseEvaluator` instance would hold once constructed. -/
structure MseEvaluator where
  label_column : String
  prediction_column : String
  score_col : String
deriving DecidableEq, BEq

/-- Model of `MseEvaluator.__init__(self, label_col, prediction_col, score_col)`
(lines 64-67 of the source): it calls
`super(AccuracyEvaluator, self).__init__(label_col, prediction_col)`.
Two-argument `super(C, self)` raises `TypeError` unless `isinstance(self, C)`;
`self` is an `MseEvaluator`, whose class inherits from `Evaluator` only, so
the `isinstance(self, AccuracyEvaluator)` check fails and construction
raises before `self.score_col` is ever assigned. -/
def MseEvaluator.init (label_col : String := "label")
    (prediction_col : String := "prediction")
    (score_col : String := "mse_score") : Except EvalError MseEvaluator :=
  if PyClass.isSubclassOf .mseEvaluatorC .accuracyEvaluatorC then
    .ok ⟨label_col, prediction_col, score_col⟩
  else .error .typeError

/-- Model of `mse_func(x, y) = float((DenseVector(x - y).values ** 2).mean())`:
the per-row mean of the element-wise squared differences of two equal-length
numeric vectors.  Non-vector cells, unequal lengths and the empty vector
(whose numpy mean is NaN) are modelled as failure.  (Numpy's length-1
broadcasting is not modelled; no claim involves it.) -/
def mse_func (x y : Val) : Option ℚ :=
  match x, y with
  | .vec a, .vec b =>
      if a.length = b.length then
        if a.length = 0 then none
        else some ((List.zipWith (fun p q => (p - q) ^ 2) a b).sum / (a.length : ℚ))
      else none
  | _, _ => none

/-- The per-row scalar the MSE UDF computes, given the resolved positions of
the label column (`i`) and the prediction column (`j`). -/
def mseRowQ (i j : Nat) (r : List Val) : Option ℚ :=
  match r[i]?, r[j]? with
  | some x, some y => mse_func x y
  | _, _ => none

/-- The UDF as a cell producer (`DoubleType` result). -/
def mseRowCell (i j : Nat) (r : List Val) : Option Val :=
  (mseRowQ i j r).map Val.num

/-- The dataframe built by
`dataframe.withColumn(self.score_col, mse(dataframe[label], dataframe[pred]))`
inside `MseEvaluator.evaluate`: the score column is derived from the label
and prediction cells of each (original) row. -/
def MseEvaluator.scoredFrame (self : MseEvaluator) (dataframe : DataFrame) :
    Option DataFrame :=
  match dataframe.colIdx self.label_column, dataframe.colIdx self.prediction_column with
  | some i, some j => dataframe.withColumn self.score_col (mseRowCell i j)
  | _, _ => none

/-- Model of `MseEvaluator.evaluate(self, dataframe)` (lines 69-81 of the source):
derive the score column, then
`dataframe.select(score).groupBy().avg(score).collect()[0][0]` and
`float(...)` the result.  On a dataframe with no rows the global average is
null and `float(None)` raises `TypeError`. -/
def MseEvaluator.evaluate (self : MseEvaluator) (dataframe : DataFrame) :
    Except EvalError ℚ :=
  match MseEvaluator.scoredFrame self dataframe with
  | none => .error .analysisError
  | some df2 =>
      match df2.select1 self.score_col with
      | none => .error .analysisError
      | some sel =>
          match sel.avgCol self.score_col with
          | none => .error .analysisError
          | some none => .error .typeError
          | some (some q) => .ok q

/-- State-passing translation of the abstract `evaluate`: the body consists
of a single `raise`, so the object state the caller sees afterwards is the
state it passed in. -/
def Evaluator.evaluateS (self : Evaluator) (_dataframe : DataFrame) :
    (Except EvalError ℚ) × Evaluator :=
  (.error .notImplementedError, self)

/-- State-passing translation of `AccuracyEvaluator.evaluate`: every
statement of the body is translated in order; the body reads
`self.prediction_column` and `self.label_column` but contains no assignment
to any attribute of `self`, so every exit returns the incoming state. -/
def AccuracyEvaluator.evaluateS (self : Evaluator) (dataframe : DataFrame) :
    (Except EvalError ℚ) × Evaluator :=
  let num_instances := dataframe.count
  match dataframe.whereEq self.prediction_column self.label_column with
  | none => (.error .analysisError, self)
  | some cleaned =>
      let validated_instances := cleaned.count
      if num_instances = 0 then (.error .zeroDivisionError, self)
      else (.ok ((validated_instances : ℚ) / (num_instances : ℚ)), self)

/-- State-passing translation of `MseEvaluator.evaluate`: the body reads
`self.label_column`, `self.prediction_column` and `self.score_col`, rebinds
only the local variable `dataframe`, and assigns no attribute of `self`, so
every exit returns the incoming state. -/
def MseEvaluator.evaluateS (self : MseEvaluator) (dataframe : DataFrame) :
    (Except EvalError ℚ) × MseEvaluator :=
  match MseEvaluator.scoredFrame self dataframe with
  | none => (.error .analysisError, self)
  | some df2 =>
      match df2.select1 self.score_col with
      | none => (.error .analysisError, self)
      | some sel =>
          match sel.avgCol self.score_col with
          | none => (.error .analysisError, self)
          | some none => (.error .typeError, self)
          | some (some q) => (.ok q, self)

/-- A heap of dataframe objects; a reference is an index into the heap.
Spark dataframes are immutable: transformations return new objects, so the
heap-level primitives below allocate and never write through an existing
reference. -/
abbrev Heap := List DataFrame

/-- Dereference a dataframe handle. -/
def Heap.read (h : Heap) (r : Nat) : Option DataFrame := h[r]?

/-- Allocate a fresh dataframe object, returning the handle. -/
def Heap.alloc (h : Heap) (df : DataFrame) : Heap × Nat := (h ++ [df], h.length)

/-- Heap-level translation of `AccuracyEvaluator.evaluate`: the caller
passes a handle `r`; `dataframe.where(...)` allocates a new object bound to
the local `cleaned`; nothing writes through `r`. -/
def AccuracyEvaluator.evaluateH (self : Evaluator) (h0 : Heap) (r : Nat) :
    Option (Heap × Except EvalError ℚ) :=
  match h0.read r with
  | none => none
  | some df =>
      let num_instances := df.count
      match df.whereEq self.prediction_column self.label_column with
      | none => some (h0, .error .analysisError)
      | some cleaned =>
          let p := h0.alloc cleaned
          match (p.1).read p.2 with
          | none => none
          | some cdf =>
              let validated_instances := cdf.count
              if num_instances = 0 then some (p.1, .error .zeroDivisionError)
              else some (p.1, .ok ((validated_instances : ℚ) / (num_instances : ℚ)))

/-- Heap-level translation of `MseEvaluator.evaluate`: the caller passes a
handle `r`; `withColumn` allocates a new object which the body rebinds to
its local `dataframe` variable, and `select` allocates another; nothing
writes through `r`, so the caller's object is untouched. -/
def MseEvaluator.evaluateH (self : MseEvaluator) (h0 : Heap) (r : Nat) :
    Option (Heap × Except EvalError ℚ) :=
  match h0.read r with
  | none => none
  | some df =>
      match MseEvaluator.scoredFrame self df with
      | none => some (h0, .error .analysisError)
      | some df2 =>
          let p := h0.alloc df2
          match (p.1).read p.2 with
          | none => none
          | some d2 =>
              match d2.select1 self.score_col with
              | none => some (p.1, .error .analysisError)
              | some sel =>
                  let p2 := (p.1).alloc sel
                  match (p2.1).read p2.2 with
                  | none => none
                  | some seld =>
                      match seld.avgCol self.score_col with
                      | none => some (p2.1, .error .analysisError)
                      | some none => some (p2.1, .error .typeError)
                      | some (some q) => some (p2.1, .ok q)

/-! ### Helper lemmas -/

theorem colIdxAux_lt_length {c : String} :
    ∀ {l : List String} {i : Nat}, colIdxAux c l = some i → i < l.length := by
  intro l
  induction l with
  | nil => intro i h; simp [colIdxAux] at h
  | cons s rest ih =>
      intro i h
      by_cases hs : s = c
      · simp [colIdxAux, hs] at h
        simp only [List.length_cons]
        omega
      · simp only [colIdxAux, if_neg hs, Option.map_eq_some'] at h
        obtain ⟨k, hk, hki⟩ := h
        have := ih hk
        simp only [List.length_cons]
        omega

theorem colIdxAux_append_of_some {c : String} :
    ∀ {l : List String} {i : Nat} (l2 : List String),
      colIdxAux c l = some i → colIdxAux c (l ++ l2) = some i := by
  intro l
  induction l with
  | nil => intro i l2 h; simp [colIdxAux] at h
  | cons s rest ih =>
      intro i l2 h
      by_cases hs : s = c
      · simp only [colIdxAux, if_pos hs] at h
        simp only [List.cons_append, colIdxAux, if_pos hs]
        exact h
      · simp only [colIdxAux, if_neg hs, Option.map_eq_some'] at h
        obtain ⟨k, hk, hki⟩ := h
        simp only [List.cons_append, colIdxAux, if_neg hs, Option.map_eq_some']
        exact ⟨k, ih l2 hk, hki⟩

theorem colIdxAux_append_self {c : String} :
    ∀ {l : List String}, colIdxAux c l = none →
      colIdxAux c (l ++ [c]) = some l.length := by
  intro l
  induction l with
  | nil => intro _; simp [colIdxAux]
  | cons s rest ih =>
      intro h
      by_cases hs : s = c
      · simp [colIdxAux, hs] at h
      · simp only [colIdxAux, if_neg hs, Option.map_eq_none'] at h
        simp only [List.cons_append, List.append_eq, colIdxAux, if_neg hs, ih h,
          Option.map_some', List.length_cons]

theorem omap_length {f : α → Option β} :
    ∀ {l : List α} {bs : List β}, omap f l = some bs → bs.length = l.length := by
  intro l
  induction l with
  | nil =>
      intro bs h
      simp only [omap, Option.some.injEq] at h
      subst h; rfl
  | cons a as ih =>
      intro bs h
      simp only [omap] at h
      cases hfa : f a with
      | none => rw [hfa] at h; exact absurd h (by simp)
      | some b =>
          cases hrest : omap f as with
          | none => rw [hfa, hrest] at h; exact absurd h (by simp)
          | some bs2 =>
              rw [hfa, hrest] at h
              simp only [Option.some.injEq] at h
              subst h
              simp only [List.length_cons, ih hrest]

/-! ### C1, C4, C5, C8: construction and simple behaviours -/

/-- C1: the specification states that constructing `MseEvaluator` (with the
defaults or with any explicit names) succeeds and stores the three column
names.  The code instead calls `super(AccuracyEvaluator, self).__init__` —
`AccuracyEvaluator` is a sibling class, not an ancestor of `MseEvaluator` —
so Python's two-argument `super` check fails and every construction raises
`TypeError`.  The spec itself (§9) flags this as a copy-paste defect, so the
claim is right and the code is wrong. -/
theorem mse_init_raises_type_error (label_col prediction_col score_col : String) :
    MseEvaluator.init label_col prediction_col score_col = .error .typeError := rfl

/-- C5: `evaluate` invoked on the abstract base `Evaluator` always fails
with the not-implemented signal and never returns a value. -/
theorem base_evaluate_not_implemented (e : Evaluator) (df : DataFrame) :
    Evaluator.evaluate e df = .error .notImplementedError := rfl

/-- C4: on a dataset with zero rows (and resolvable prediction/label
columns), `AccuracyEvaluator.evaluate` fails with the division-by-zero
fault; it does not return `0`, `NaN` or any other sentinel. -/
theorem accuracy_evaluate_empty_raises (e : Evaluator) (df : DataFrame)
    (i j : Nat)
    (hp : df.colIdx e.prediction_column = some i)
    (hl : df.colIdx e.label_column = some j)
    (h0 : df.rows = []) :
    AccuracyEvaluator.evaluate e df = .error .zeroDivisionError := by
  unfold AccuracyEvaluator.evaluate DataFrame.whereEq
  rw [hp, hl]
  simp [DataFrame.count, h0]

/-- Witness for C4 at a concrete zero-row dataframe. -/
theorem accuracy_evaluate_empty_raises_witness :
    AccuracyEvaluator.evaluate (Evaluator.init "label" "prediction")
      ⟨["label", "prediction"], []⟩ = .error .zeroDivisionError :=
  accuracy_evaluate_empty_raises (Evaluator.init "label" "prediction")
    ⟨["label", "prediction"], []⟩ 1 0 (by decide) (by decide) rfl

/-- C8: no `evaluate` body assigns any attribute of `self`; in the
state-passing translations every exit — success or failure, on any
dataframe — returns the evaluator state received at entry, so the
configuration fields keep their construction-time values. -/
theorem evaluate_config_immutable (e : Evaluator) (m : MseEvaluator) (df : DataFrame) :
    (Evaluator.evaluateS e df).2 = e ∧
    (AccuracyEvaluator.evaluateS e df).2 = e ∧
    (MseEvaluator.evaluateS m df).2 = m := by
  refine ⟨rfl, ?_, ?_⟩
  · unfold AccuracyEvaluator.evaluateS
    split
    · rfl
    · dsimp only
      split <;> rfl
  · unfold MseEvaluator.evaluateS
    repeat' split
    all_goals rfl

/-! ### C2, C9: AccuracyEvaluator on non-empty datasets -/

/-- Helper: the closed form of `AccuracyEvaluator.evaluate` on a well-formed
non-empty dataset with resolvable columns. -/
theorem accuracy_eval_formula (e : Evaluator) (df : DataFrame) (i j : Nat)
    (hwf : df.Wf)
    (hp : df.colIdx e.prediction_column = some i)
    (hl : df.colIdx e.label_column = some j)
    (hN : df.rows ≠ []) :
    AccuracyEvaluator.evaluate e df =
      .ok ((matchCount df i j : ℚ) / (df.count : ℚ)) := by
  have hi : i < df.cols.length := colIdxAux_lt_length hp
  have hj : j < df.cols.length := colIdxAux_lt_length hl
  have hfil : df.rows.filter (fun r =>
      match r[i]?, r[j]? with
      | some a, some b => decide (a = b)
      | _, _ => false) = df.rows.filter (fun r => decide (r[i]? = r[j]?)) := by
    apply List.filter_congr
    intro r hr
    have hlen : r.length = df.cols.length := hwf r hr
    have hri : i < r.length := by omega
    have hrj : j < r.length := by omega
    rw [List.getElem?_eq_getElem hri, List.getElem?_eq_getElem hrj]
    simp
  have hc : ¬ (df.count = 0) := by
    simp only [DataFrame.count, List.length_eq_zero]
    exact hN
  unfold AccuracyEvaluator.evaluate DataFrame.whereEq
  rw [hp, hl]
  dsimp only
  rw [if_neg hc]
  unfold matchCount DataFrame.count
  rw [hfil]

/-- C2: on a well-formed dataset with `N > 0` rows of which `M` have equal
prediction and label cells, `AccuracyEvaluator.evaluate` returns the scalar
`M / N` (exact rational division modelling the float division of the
source). -/
theorem accuracy_evaluate_fraction (e : Evaluator) (df : DataFrame) (i j : Nat)
    (hwf : df.Wf)
    (hp : df.colIdx e.prediction_column = some i)
    (hl : df.colIdx e.label_column = some j)
    (hN : df.rows ≠ []) :
    AccuracyEvaluator.evaluate e df =
      .ok ((matchCount df i j : ℚ) / (df.count : ℚ)) :=
  accuracy_eval_formula e df i j hwf hp hl hN

/-- Witness for C2: two rows, one matching, accuracy `1/2`. -/
theorem accuracy_evaluate_fraction_witness :
    AccuracyEvaluator.evaluate (Evaluator.init "label" "prediction")
      ⟨["label", "prediction"], [[.num 1, .num 1], [.num 0, .num 1]]⟩ =
      .ok ((matchCount ⟨["label", "prediction"], [[.num 1, .num 1], [.num 0, .num 1]]⟩ 1 0 : ℚ) /
        (DataFrame.count ⟨["label", "prediction"], [[.num 1, .num 1], [.num 0, .num 1]]⟩ : ℚ)) :=
  accuracy_evaluate_fraction (Evaluator.init "label" "prediction")
    ⟨["label", "prediction"], [[.num 1, .num 1], [.num 0, .num 1]]⟩ 1 0
    (by intro r hr; fin_cases hr <;> rfl) (by decide) (by decide) (by decide)

/-- C9: whenever `AccuracyEvaluator.evaluate` returns a value, that value
lies in `[0, 1]`: the filtered row count never exceeds the total row
count. -/
theorem accuracy_evaluate_bounds (e : Evaluator) (df : DataFrame) (q : ℚ)
    (h : AccuracyEvaluator.evaluate e df = .ok q) : 0 ≤ q ∧ q ≤ 1 := by
  unfold AccuracyEvaluator.evaluate DataFrame.whereEq at h
  cases hp : df.colIdx e.prediction_column with
  | none => rw [hp] at h; exact absurd h (by simp)
  | some i =>
      cases hl : df.colIdx e.label_column with
      | none => rw [hp, hl] at h; exact absurd h (by simp)
      | some j =>
          rw [hp, hl] at h
          dsimp only at h
          by_cases h0 : df.count = 0
          · rw [if_pos h0] at h
            exact absurd h (by simp)
          · rw [if_neg h0] at h
            simp only [Except.ok.injEq] at h
            subst h
            have hpos : (0 : ℚ) < (df.count : ℚ) := by
              exact_mod_cast Nat.pos_of_ne_zero h0
            constructor
            · exact div_nonneg (Nat.cast_nonneg _) (Nat.cast_nonneg _)
            · rw [div_le_one hpos]
              have hle : (df.rows.filter (fun r =>
                  match r[i]?, r[j]? with
                  | some a, some b => decide (a = b)
                  | _, _ => false)).length ≤ df.count :=
                List.length_filter_le _ _
              exact_mod_cast hle

/-- Witness for C9: a one-row all-match dataset, whose accuracy is in
`[0, 1]`. -/
theorem accuracy_evaluate_bounds_witness :
    0 ≤ ((matchCount ⟨["label", "prediction"], [[.num 1, .num 1]]⟩ 1 0 : ℚ) /
        (DataFrame.count ⟨["label", "prediction"], [[.num 1, .num 1]]⟩ : ℚ)) ∧
    ((matchCount ⟨["label", "prediction"], [[.num 1, .num 1]]⟩ 1 0 : ℚ) /
        (DataFrame.count ⟨["label", "prediction"], [[.num 1, .num 1]]⟩ : ℚ)) ≤ 1 :=
  accuracy_evaluate_bounds (Evaluator.init "label" "prediction")
    ⟨["label", "prediction"], [[.num 1, .num 1]]⟩ _
    (accuracy_eval_formula (Evaluator.init "label" "prediction")
      ⟨["label", "prediction"], [[.num 1, .num 1]]⟩ 1 0
      (by intro r hr; fin_cases hr; rfl) (by decide) (by decide) (by decide))

/-! ### Helper lemmas for the MSE pipeline -/

theorem omap_map_val {g : α → Option β} {h : β → γ} :
    ∀ l : List α, omap (fun a => (g a).map h) l = (omap g l).map (List.map h) := by
  intro l
  induction l with
  | nil => simp [omap]
  | cons a as ih =>
      simp only [omap, ih]
      cases hga : g a with
      | none => simp
      | some b =>
          cases hoas : omap g as with
          | none => simp
          | some bs => simp

theorem omap_getElem_append (k : Nat) :
    ∀ (rows : List (List Val)) (svals : List Val),
      rows.length = svals.length → (∀ r ∈ rows, r.length = k) →
      omap (fun r => r[k]?) (List.zipWith (fun r v => r ++ [v]) rows svals) =
        some svals := by
  intro rows
  induction rows with
  | nil =>
      intro svals hlen _
      cases svals with
      | nil => simp [omap]
      | cons v vs => simp at hlen
  | cons r rs ih =>
      intro svals hlen hk
      cases svals with
      | nil => simp at hlen
      | cons v vs =>
          have hr : r.length = k := hk r (by simp)
          have hcell : (r ++ [v])[k]? = some v := by
            rw [← hr]
            exact List.getElem?_concat_length r v
          have hrest := ih vs (by simpa using hlen)
            (fun r2 hr2 => hk r2 (List.mem_cons_of_mem _ hr2))
          simp only [List.zipWith_cons_cons, omap, hcell, hrest]

theorem omap_getElem_set (k : Nat) :
    ∀ (rows : List (List Val)) (svals : List Val),
      rows.length = svals.length → (∀ r ∈ rows, k < r.length) →
      omap (fun r => r[k]?) (List.zipWith (fun r v => r.set k v) rows svals) =
        some svals := by
  intro rows
  induction rows with
  | nil =>
      intro svals hlen _
      cases svals with
      | nil => simp [omap]
      | cons v vs => simp at hlen
  | cons r rs ih =>
      intro svals hlen hk
      cases svals with
      | nil => simp at hlen
      | cons v vs =>
          have hr : k < r.length := hk r (by simp)
          have hcell : (r.set k v)[k]? = some v := by
            rw [List.getElem?_set]
            simp [hr]
          have hrest := ih vs (by simpa using hlen)
            (fun r2 hr2 => hk r2 (List.mem_cons_of_mem _ hr2))
          simp only [List.zipWith_cons_cons, omap, hcell, hrest]

theorem mseRowQ_append_cell (i j : Nat) (r : List Val) (v : Val)
    (hi : i < r.length) (hj : j < r.length) :
    mseRowQ i j (r ++ [v]) = mseRowQ i j r := by
  unfold mseRowQ
  rw [List.getElem?_append, if_pos hi, List.getElem?_append, if_pos hj]

theorem omap_mseRowQ_append (i j : Nat) :
    ∀ (rows : List (List Val)) (svals : List Val),
      rows.length = svals.length →
      (∀ r ∈ rows, i < r.length ∧ j < r.length) →
      omap (mseRowQ i j) (List.zipWith (fun r v => r ++ [v]) rows svals) =
        omap (mseRowQ i j) rows := by
  intro rows
  induction rows with
  | nil =>
      intro svals hlen _
      cases svals with
      | nil => rfl
      | cons v vs => simp at hlen
  | cons r rs ih =>
      intro svals hlen hk
      cases svals with
      | nil => simp at hlen
      | cons v vs =>
          have hr := hk r (by simp)
          have hrest := ih vs (by simpa using hlen)
            (fun r2 hr2 => hk r2 (List.mem_cons_of_mem _ hr2))
          simp only [List.zipWith_cons_cons, omap, hrest,
            mseRowQ_append_cell i j r v hr.1 hr.2]

theorem omap_num_cells :
    ∀ scores : List ℚ,
      omap (fun r =>
          match r[0]? with
          | some (Val.num q) => some q
          | _ => none) ((scores.map Val.num).map (fun v => [v])) = some scores := by
  intro scores
  induction scores with
  | nil => rfl
  | cons s ss ih =>
      simp only [List.map_cons, omap, ih]
      rfl

theorem mem_zipWith_append :
    ∀ (rows : List (List Val)) (svals : List Val) (r2 : List Val),
      r2 ∈ List.zipWith (fun r v => r ++ [v]) rows svals →
      ∃ r v, r ∈ rows ∧ r2 = r ++ [v] := by
  intro rows
  induction rows with
  | nil => intro svals r2 h; simp at h
  | cons r rs ih =>
      intro svals r2 h
      cases svals with
      | nil => simp at h
      | cons v vs =>
          simp only [List.zipWith_cons_cons, List.mem_cons] at h
          rcases h with h | h
          · exact ⟨r, v, by simp, h⟩
          · obtain ⟨r3, v3, hr3, he⟩ := ih vs r2 h
            exact ⟨r3, v3, List.mem_cons_of_mem _ hr3, he⟩

/-- The `withColumn` inside `MseEvaluator.evaluate`, schema-growing case: the
score column is not yet in the schema, so it is appended. -/
theorem scoredFrame_append (e : MseEvaluator) (df : DataFrame) (i j : Nat)
    (svals : List Val)
    (hl : df.colIdx e.label_column = some i)
    (hp : df.colIdx e.prediction_column = some j)
    (hnew : df.colIdx e.score_col = none)
    (hsv : omap (mseRowCell i j) df.rows = some svals) :
    MseEvaluator.scoredFrame e df =
      some ⟨df.cols ++ [e.score_col],
        List.zipWith (fun r v => r ++ [v]) df.rows svals⟩ := by
  unfold MseEvaluator.scoredFrame DataFrame.withColumn
  rw [hl, hp]
  dsimp only
  rw [hsv]
  dsimp only
  rw [show DataFrame.colIdx df e.score_col = none from hnew]

/-- The `withColumn` inside `MseEvaluator.evaluate`, column-replacing case: the
score column is already in the schema at position `k`, so Spark replaces it
in place and the schema is unchanged. -/
theorem scoredFrame_replace (e : MseEvaluator) (df : DataFrame) (i j k : Nat)
    (svals : List Val)
    (hl : df.colIdx e.label_column = some i)
    (hp : df.colIdx e.prediction_column = some j)
    (hk : df.colIdx e.score_col = some k)
    (hsv : omap (mseRowCell i j) df.rows = some svals) :
    MseEvaluator.scoredFrame e df =
      some ⟨df.cols, List.zipWith (fun r v => r.set k v) df.rows svals⟩ := by
  unfold MseEvaluator.scoredFrame DataFrame.withColumn
  rw [hl, hp]
  dsimp only
  rw [hsv]
  dsimp only
  rw [show DataFrame.colIdx df e.score_col = some k from hk]

/-- Selecting the score column on the schema-grown frame extracts exactly the derived
cells. -/
theorem select1_append_frame (df : DataFrame) (name : String) (svals : List Val)
    (hnew : df.colIdx name = none)
    (hwf : df.Wf)
    (hlen : df.rows.length = svals.length) :
    DataFrame.select1
        ⟨df.cols ++ [name], List.zipWith (fun r v => r ++ [v]) df.rows svals⟩ name =
      some ⟨[name], svals.map (fun v => [v])⟩ := by
  unfold DataFrame.select1 DataFrame.colIdx
  dsimp only
  rw [colIdxAux_append_self hnew]
  dsimp only
  rw [omap_getElem_append df.cols.length df.rows svals hlen hwf]

/-- Selecting the score column on the column-replaced frame extracts exactly the
derived cells. -/
theorem select1_set_frame (df : DataFrame) (name : String) (k : Nat) (svals : List Val)
    (hk : df.colIdx name = some k)
    (hklt : ∀ r ∈ df.rows, k < r.length)
    (hlen : df.rows.length = svals.length) :
    DataFrame.select1
        ⟨df.cols, List.zipWith (fun r v => r.set k v) df.rows svals⟩ name =
      some ⟨[name], svals.map (fun v => [v])⟩ := by
  unfold DataFrame.select1 DataFrame.colIdx
  dsimp only
  rw [show colIdxAux name df.cols = some k from hk]
  dsimp only
  rw [omap_getElem_set k df.rows svals hlen hklt]

/-- The global average of the selected single score column. -/
theorem avgCol_wrapped (name : String) (scores : List ℚ)
    (hne2 : ¬ (scores.length = 0)) :
    DataFrame.avgCol ⟨[name], (scores.map Val.num).map (fun v => [v])⟩ name =
      some (some (scores.sum / (scores.length : ℚ))) := by
  have hcol : colIdxAux name [name] = some 0 := by simp [colIdxAux]
  unfold DataFrame.avgCol DataFrame.colIdx
  dsimp only
  rw [hcol]
  dsimp only
  rw [omap_num_cells]
  dsimp only
  rw [if_neg hne2]

/-- Helper: the closed form of `MseEvaluator.evaluate` on a well-formed
non-empty dataset whose per-row MSE scores are `scores` (both the
schema-growing and the column-replacing case). -/
theorem mse_eval_ok (e : MseEvaluator) (df : DataFrame) (i j : Nat)
    (scores : List ℚ)
    (hwf : df.Wf)
    (hl : df.colIdx e.label_column = some i)
    (hp : df.colIdx e.prediction_column = some j)
    (hs : omap (mseRowQ i j) df.rows = some scores)
    (hne : df.rows ≠ []) :
    MseEvaluator.evaluate e df = .ok (scores.sum / (scores.length : ℚ)) := by
  have hsv : omap (mseRowCell i j) df.rows = some (scores.map Val.num) := by
    have h2 := omap_map_val (g := mseRowQ i j) (h := Val.num) df.rows
    unfold mseRowCell
    rw [h2, hs]
    rfl
  have hslen : scores.length = df.rows.length := omap_length hs
  have hlen0 : ¬ (scores.length = 0) := by
    rw [hslen, List.length_eq_zero]
    exact hne
  have hlen2 : df.rows.length = (scores.map Val.num).length := by
    simp [hslen]
  unfold MseEvaluator.evaluate
  cases hsc : df.colIdx e.score_col with
  | none =>
      rw [scoredFrame_append e df i j (scores.map Val.num) hl hp hsc hsv]
      dsimp only
      rw [select1_append_frame df e.score_col (scores.map Val.num) hsc hwf hlen2]
      dsimp only
      rw [avgCol_wrapped e.score_col scores hlen0]
  | some k =>
      have hklt : ∀ r ∈ df.rows, k < r.length := by
        intro r hr
        rw [hwf r hr]
        exact colIdxAux_lt_length hsc
      rw [scoredFrame_replace e df i j k (scores.map Val.num) hl hp hsc hsv]
      dsimp only
      rw [select1_set_frame df e.score_col k (scores.map Val.num) hsc hklt hlen2]
      dsimp only
      rw [avgCol_wrapped e.score_col scores hlen0]

/-! ### C3: MseEvaluator computes the mean of the per-row MSE scores -/

/-- C3: on a well-formed non-empty dataset whose label and prediction cells
are equal-length numeric vectors with per-row scores `scores` (each score
the mean of the element-wise squared differences of that row's label and
prediction vectors, as computed by `mse_func`), `MseEvaluator.evaluate`
returns the arithmetic mean of `scores` over all rows. -/
theorem mse_evaluate_mean (e : MseEvaluator) (df : DataFrame) (i j : Nat)
    (scores : List ℚ)
    (hwf : df.Wf)
    (hl : df.colIdx e.label_column = some i)
    (hp : df.colIdx e.prediction_column = some j)
    (hs : omap (mseRowQ i j) df.rows = some scores)
    (hne : df.rows ≠ []) :
    MseEvaluator.evaluate e df = .ok (scores.sum / (scores.length : ℚ)) :=
  mse_eval_ok e df i j scores hwf hl hp hs hne

/-- Witness for C3: the spec's own example — a single row with label
`[1, 2]` and prediction `[3, 2]` has per-row score `mean([4, 0]) = 2`, and
the dataset-wide MSE is `2`. -/
theorem mse_evaluate_mean_witness :
    MseEvaluator.evaluate ⟨"label", "prediction", "mse_score"⟩
      ⟨["label", "prediction"], [[.vec [1, 2], .vec [3, 2]]]⟩ =
      .ok (([(2 : ℚ)] : List ℚ).sum / ((([(2 : ℚ)] : List ℚ).length : Nat) : ℚ)) :=
  mse_evaluate_mean ⟨"label", "prediction", "mse_score"⟩
    ⟨["label", "prediction"], [[.vec [1, 2], .vec [3, 2]]]⟩ 0 1 [(2 : ℚ)]
    (by intro r hr; fin_cases hr; rfl) (by decide) (by decide)
    (by norm_num [omap, mseRowQ, mse_func]) (by decide)

/-! ### C6: the derived column and the schema -/

/-- C6 counterexample: the claim quantifies over every dataset, but on a
dataset whose schema already contains the configured score column
(`"mse_score"` here), Spark's `withColumn` replaces that column in place:
the schema after the derivation is identical to the schema before, so no
new column is added (and the pre-existing score column's values are
overwritten). -/
theorem mse_adds_column_counterexample :
    (MseEvaluator.scoredFrame ⟨"label", "prediction", "mse_score"⟩
        ⟨["label", "prediction", "mse_score"],
          [[.vec [1, 2], .vec [3, 2], .num 0]]⟩).map DataFrame.cols =
      some ["label", "prediction", "mse_score"] := rfl

/-- C6 (amended): provided the configured score column is not already in
the dataset's schema — and the label and prediction columns resolve and
every row is accepted by the UDF — the column derivation inside
`MseEvaluator.evaluate` adds exactly one new column, named by the
configuration and appended after the existing schema, and every row keeps
all its pre-existing cells unchanged (the derived cell is appended at the
end).  When the score column is already present the code replaces it in
place instead (see the counterexample). -/
theorem mse_adds_exactly_one_column (e : MseEvaluator) (df : DataFrame)
    (i j : Nat) (svals : List Val)
    (hl : df.colIdx e.label_column = some i)
    (hp : df.colIdx e.prediction_column = some j)
    (hnew : df.colIdx e.score_col = none)
    (hsv : omap (mseRowCell i j) df.rows = some svals) :
    MseEvaluator.scoredFrame e df =
      some ⟨df.cols ++ [e.score_col],
        List.zipWith (fun r v => r ++ [v]) df.rows svals⟩ :=
  scoredFrame_append e df i j svals hl hp hnew hsv

/-- Witness for C6 at the spec's example row. -/
theorem mse_adds_exactly_one_column_witness :
    MseEvaluator.scoredFrame ⟨"label", "prediction", "mse_score"⟩
      ⟨["label", "prediction"], [[.vec [1, 2], .vec [3, 2]]]⟩ =
      some ⟨["label", "prediction"] ++ ["mse_score"],
        List.zipWith (fun r v => r ++ [v])
          [[Val.vec [1, 2], Val.vec [3, 2]]] [Val.num 2]⟩ :=
  mse_adds_exactly_one_column ⟨"label", "prediction", "mse_score"⟩
    ⟨["label", "prediction"], [[.vec [1, 2], .vec [3, 2]]]⟩ 0 1 [Val.num 2]
    (by decide) (by decide) (by decide)
    (by norm_num [omap, mseRowCell, mseRowQ, mse_func])

/-! ### C7: repeated evaluation -/

theorem omap_cell_of_q (i j : Nat) (rows : List (List Val)) (scores : List ℚ)
    (hs : omap (mseRowQ i j) rows = some scores) :
    omap (mseRowCell i j) rows = some (scores.map Val.num) := by
  have h2 := omap_map_val (g := mseRowQ i j) (h := Val.num) rows
  unfold mseRowCell
  rw [h2, hs]
  rfl

/-- C7: `evaluate` is a pure function of the configuration and the dataset,
so two calls on an unchanged dataset trivially return the same scalar (for
the accuracy variant as well).  The substantive content concerns the MSE
variant: the frame `df2` carrying the derived score column — the dataset a
repeated evaluation can see — still resolves the label and prediction
columns to their original cells, so evaluating it again does not fail,
returns the same scalar, and its internal `withColumn` replaces the
existing score column rather than inserting a second copy (the schema of
the re-derived frame `df3` equals that of `df2`). -/
theorem mse_evaluate_second_call (e : MseEvaluator) (df : DataFrame)
    (i j : Nat) (scores : List ℚ)
    (hwf : df.Wf)
    (hl : df.colIdx e.label_column = some i)
    (hp : df.colIdx e.prediction_column = some j)
    (hnew : df.colIdx e.score_col = none)
    (hs : omap (mseRowQ i j) df.rows = some scores)
    (hne : df.rows ≠ []) :
    ∃ df2, MseEvaluator.scoredFrame e df = some df2 ∧
      e.score_col ∈ df2.cols ∧
      MseEvaluator.evaluate e df = .ok (scores.sum / (scores.length : ℚ)) ∧
      MseEvaluator.evaluate e df2 = .ok (scores.sum / (scores.length : ℚ)) ∧
      ∃ df3, MseEvaluator.scoredFrame e df2 = some df3 ∧
        df3.cols = df2.cols := by
  have hsv : omap (mseRowCell i j) df.rows = some (scores.map Val.num) :=
    omap_cell_of_q i j df.rows scores hs
  have hslen : scores.length = df.rows.length := omap_length hs
  have hlen3 : df.rows.length = (scores.map Val.num).length := by simp [hslen]
  refine ⟨⟨df.cols ++ [e.score_col],
    List.zipWith (fun r v => r ++ [v]) df.rows (scores.map Val.num)⟩,
    scoredFrame_append e df i j (scores.map Val.num) hl hp hnew hsv, ?_, ?_, ?_, ?_⟩
  · simp
  · exact mse_eval_ok e df i j scores hwf hl hp hs hne
  · -- the second call, on the frame already carrying the score column
    have hwf2 : DataFrame.Wf ⟨df.cols ++ [e.score_col],
        List.zipWith (fun r v => r ++ [v]) df.rows (scores.map Val.num)⟩ := by
      intro r2 hr2
      obtain ⟨r, v, hr, he⟩ := mem_zipWith_append df.rows (scores.map Val.num) r2 hr2
      subst he
      simp [hwf r hr]
    have hbounds : ∀ r ∈ df.rows, i < r.length ∧ j < r.length := by
      intro r hr
      rw [hwf r hr]
      exact ⟨colIdxAux_lt_length hl, colIdxAux_lt_length hp⟩
    have hs2 : omap (mseRowQ i j)
        (List.zipWith (fun r v => r ++ [v]) df.rows (scores.map Val.num)) =
        some scores := by
      rw [omap_mseRowQ_append i j df.rows (scores.map Val.num) hlen3 hbounds]
      exact hs
    have hne2 : List.zipWith (fun r v => r ++ [v]) df.rows
        (scores.map Val.num) ≠ [] := by
      have hlz : (List.zipWith (fun r v => r ++ [v]) df.rows
          (scores.map Val.num)).length = df.rows.length := by
        rw [List.length_zipWith, ← hlen3, Nat.min_self]
      intro hcon
      rw [hcon] at hlz
      exact hne (List.length_eq_zero.mp hlz.symm)
    exact mse_eval_ok e _ i j scores hwf2
      (colIdxAux_append_of_some [e.score_col] hl)
      (colIdxAux_append_of_some [e.score_col] hp) hs2 hne2
  · -- re-deriving on `df2` replaces the column: no second copy
    have hbounds : ∀ r ∈ df.rows, i < r.length ∧ j < r.length := by
      intro r hr
      rw [hwf r hr]
      exact ⟨colIdxAux_lt_length hl, colIdxAux_lt_length hp⟩
    have hs2 : omap (mseRowQ i j)
        (List.zipWith (fun r v => r ++ [v]) df.rows (scores.map Val.num)) =
        some scores := by
      rw [omap_mseRowQ_append i j df.rows (scores.map Val.num) hlen3 hbounds]
      exact hs
    exact ⟨_, scoredFrame_replace e _ i j df.cols.length (scores.map Val.num)
      (colIdxAux_append_of_some [e.score_col] hl)
      (colIdxAux_append_of_some [e.score_col] hp)
      (colIdxAux_append_self hnew)
      (omap_cell_of_q i j _ scores hs2), rfl⟩

/-- Witness for C7 at the spec's example row. -/
theorem mse_evaluate_second_call_witness :
    ∃ df2, MseEvaluator.scoredFrame ⟨"label", "prediction", "mse_score"⟩
        ⟨["label", "prediction"], [[.vec [1, 2], .vec [3, 2]]]⟩ = some df2 ∧
      "mse_score" ∈ df2.cols ∧
      MseEvaluator.evaluate ⟨"label", "prediction", "mse_score"⟩
        ⟨["label", "prediction"], [[.vec [1, 2], .vec [3, 2]]]⟩ =
        .ok (([(2 : ℚ)] : List ℚ).sum / ((([(2 : ℚ)] : List ℚ).length : Nat) : ℚ)) ∧
      MseEvaluator.evaluate ⟨"label", "prediction", "mse_score"⟩ df2 =
        .ok (([(2 : ℚ)] : List ℚ).sum / ((([(2 : ℚ)] : List ℚ).length : Nat) : ℚ)) ∧
      ∃ df3, MseEvaluator.scoredFrame ⟨"label", "prediction", "mse_score"⟩ df2 =
        some df3 ∧ df3.cols = df2.cols :=
  mse_evaluate_second_call ⟨"label", "prediction", "mse_score"⟩
    ⟨["label", "prediction"], [[.vec [1, 2], .vec [3, 2]]]⟩ 0 1 [(2 : ℚ)]
    (by intro r hr; fin_cases hr; rfl) (by decide) (by decide) (by decide)
    (by norm_num [omap, mseRowQ, mse_func]) (by decide)

/-! ### C10: the caller's dataset object is never mutated -/

theorem heap_read_alloc_lt (h : Heap) (d : DataFrame) (s : Nat)
    (hs : s < h.length) : ((h.alloc d).1).read s = h.read s := by
  unfold Heap.alloc Heap.read
  dsimp only
  rw [List.getElem?_append, if_pos hs]

theorem heap_read_alloc_self (h : Heap) (d : DataFrame) :
    ((h.alloc d).1).read (h.alloc d).2 = some d := by
  unfold Heap.alloc Heap.read
  dsimp only
  exact List.getElem?_concat_length h d

theorem heap_alloc_length (h : Heap) (d : DataFrame) :
    ((h.alloc d).1).length = h.length + 1 := by
  unfold Heap.alloc
  simp

/-- C10: in the heap model — where the Spark primitives allocate new
dataframe objects, as the engine's immutable dataframes do — both
`evaluate` bodies only ever allocate: every call returns a heap in which
every pre-existing reference, in particular the caller's handle `r`, still
dereferences to exactly the dataframe it held before the call (same
schema, same rows; the caller's handle does not gain the score column),
and the scalar returned agrees with the pure model. -/
theorem evaluate_no_caller_mutation (e : Evaluator) (m : MseEvaluator)
    (h : Heap) (r : Nat) (df : DataFrame) (hr : h.read r = some df) :
    (∃ h1 res1, AccuracyEvaluator.evaluateH e h r = some (h1, res1) ∧
      res1 = AccuracyEvaluator.evaluate e df ∧
      ∀ s, s < h.length → h1.read s = h.read s) ∧
    (∃ h2 res2, MseEvaluator.evaluateH m h r = some (h2, res2) ∧
      res2 = MseEvaluator.evaluate m df ∧
      ∀ s, s < h.length → h2.read s = h.read s) := by
  constructor
  · unfold AccuracyEvaluator.evaluateH
    rw [hr]
    dsimp only
    cases hw : df.whereEq e.prediction_column e.label_column with
    | none =>
        refine ⟨h, .error .analysisError, rfl, ?_, fun s hs => rfl⟩
        unfold AccuracyEvaluator.evaluate
        rw [hw]
    | some cleaned =>
        dsimp only
        rw [heap_read_alloc_self h cleaned]
        dsimp only
        by_cases h0 : df.count = 0
        · rw [if_pos h0]
          refine ⟨_, _, rfl, ?_, fun s hs => heap_read_alloc_lt h cleaned s hs⟩
          unfold AccuracyEvaluator.evaluate
          rw [hw]
          dsimp only
          rw [if_pos h0]
        · rw [if_neg h0]
          refine ⟨_, _, rfl, ?_, fun s hs => heap_read_alloc_lt h cleaned s hs⟩
          unfold AccuracyEvaluator.evaluate
          rw [hw]
          dsimp only
          rw [if_neg h0]
  · unfold MseEvaluator.evaluateH
    rw [hr]
    dsimp only
    cases hsf : MseEvaluator.scoredFrame m df with
    | none =>
        refine ⟨h, .error .analysisError, rfl, ?_, fun s hs => rfl⟩
        unfold MseEvaluator.evaluate
        rw [hsf]
    | some df2 =>
        dsimp only
        rw [heap_read_alloc_self h df2]
        dsimp only
        cases hsel : df2.select1 m.score_col with
        | none =>
            refine ⟨_, _, rfl, ?_, fun s hs => heap_read_alloc_lt h df2 s hs⟩
            unfold MseEvaluator.evaluate
            rw [hsf]
            dsimp only
            rw [hsel]
        | some sel =>
            dsimp only
            rw [heap_read_alloc_self ((h.alloc df2).1) sel]
            dsimp only
            have hreads : ∀ s, s < h.length →
                ((((h.alloc df2).1).alloc sel).1).read s = h.read s := by
              intro s hs
              have hs2 : s < ((h.alloc df2).1).length := by
                rw [heap_alloc_length]
                omega
              rw [heap_read_alloc_lt ((h.alloc df2).1) sel s hs2]
              exact heap_read_alloc_lt h df2 s hs
            cases hav : sel.avgCol m.score_col with
            | none =>
                refine ⟨_, _, rfl, ?_, hreads⟩
                unfold MseEvaluator.evaluate
                rw [hsf]
                dsimp only
                rw [hsel]
                dsimp only
                rw [hav]
            | some o =>
                cases o with
                | none =>
                    refine ⟨_, _, rfl, ?_, hreads⟩
                    unfold MseEvaluator.evaluate
                    rw [hsf]
                    dsimp only
                    rw [hsel]
                    dsimp only
                    rw [hav]
                | some q =>
                    refine ⟨_, _, rfl, ?_, hreads⟩
                    unfold MseEvaluator.evaluate
                    rw [hsf]
                    dsimp only
                    rw [hsel]
                    dsimp only
                    rw [hav]

/-- Witness for C10: a one-object heap; after both calls the caller's
handle still holds the original dataframe. -/
theorem evaluate_no_caller_mutation_witness :
    (∃ h1 res1, AccuracyEvaluator.evaluateH (Evaluator.init "label" "prediction")
        [⟨["label", "prediction"], [[.num 1, .num 1]]⟩] 0 = some (h1, res1) ∧
      res1 = AccuracyEvaluator.evaluate (Evaluator.init "label" "prediction")
        ⟨["label", "prediction"], [[.num 1, .num 1]]⟩ ∧
      ∀ s, s < ([⟨["label", "prediction"], [[.num 1, .num 1]]⟩] : Heap).length →
        Heap.read h1 s =
          Heap.read [⟨["label", "prediction"], [[.num 1, .num 1]]⟩] s) ∧
    (∃ h2 res2, MseEvaluator.evaluateH ⟨"label", "prediction", "mse_score"⟩
        [⟨["label", "prediction"], [[.num 1, .num 1]]⟩] 0 = some (h2, res2) ∧
      res2 = MseEvaluator.evaluate ⟨"label", "prediction", "mse_score"⟩
        ⟨["label", "prediction"], [[.num 1, .num 1]]⟩ ∧
      ∀ s, s < ([⟨["label", "prediction"], [[.num 1, .num 1]]⟩] : Heap).length →
        Heap.read h2 s =
          Heap.read [⟨["label", "prediction"], [[.num 1, .num 1]]⟩] s) :=
  evaluate_no_caller_mutation (Evaluator.init "label" "prediction")
    ⟨"label", "prediction", "mse_score"⟩
    [⟨["label", "prediction"], [[.num 1, .num 1]]⟩] 0
    ⟨["label", "prediction"], [[.num 1, .num 1]]⟩ rfl

end DistKeras
